import Mathlib

/-!
Verification of the staleness classification and action-decision engine of
close-stale-prs (src/stale-prs.ts), as a shallow embedding in Lean 4.

Modelling conventions:
- A JavaScript `Date` is its millisecond timestamp, a `Nat` (the code only
  compares timestamps and adds day offsets; `Date.now()` is passed as `now`).
- GitHub ISO-8601 timestamp strings (all the same length and format) compare
  lexicographically exactly as their timestamps compare numerically, so the
  code's `localeCompare` sorts and `>` comparisons on such strings are
  modelled on the numeric timestamps.  A string field that may be absent is
  an `Option Nat`; in a JavaScript relational comparison an absent (null)
  operand compared with a string yields NaN and the comparison is false both
  ways, which `jsGtOpt` mirrors.
- JavaScript objects used as string-keyed records are association lists with
  JS property semantics: assigning to an existing key overwrites in place,
  a new key is appended (`recInsert`); `Object.values`/`Object.entries`
  iterate in that insertion order.
- The configured `importantChecksRegex` is an abstract predicate
  `String → Bool` standing for `id => !!id.match(regex)`.
- The octokit client is a data source: each extractor takes the fetched
  list as an argument.  Mutations (create comment, add labels, close) are
  recorded in an `Effects` value: `calls` the external calls performed,
  `logs` the console lines that replace them under dry-run.
-/

namespace StalePrs

/-- Milliseconds per day, as in `days * 24 * 3600 * 1000`. -/
def msPerDay : Nat := 24 * 3600 * 1000

/-- Configuration record, `StalePrFinderProps` (optional fields are `Option`;
`dryRun` is the truthiness of the optional boolean). -/
structure Props where
  staleDays : Nat
  responseDays : Nat
  mergeConflictWarningDays : Option Nat
  mergeConflictWarning : Option String
  importantChecksRegex : Option (String → Bool)
  skipLabels : Option (List String)
  warnMessage : Option String
  closeMessage : Option String
  closeLabel : Option String
  dryRun : Bool

/-- Effective merge-conflict warning threshold: `props.mergeConflictWarningDays ?? 3`. -/
def mcwDays (props : Props) : Nat := props.mergeConflictWarningDays.getD 3

/-- `olderThanDays`: `t.getTime() + days * 24 * 3600 * 1000 < Date.now()`. -/
def olderThanDays (t days now : Nat) : Bool := decide (t + days * msPerDay < now)

/-- `stale`: older than `staleDays`. -/
def isStale (props : Props) (t now : Nat) : Bool := olderThanDays t props.staleDays now

/-- `outOfGracePeriod`: older than `responseDays`. -/
def outOfGracePeriod (props : Props) (t now : Nat) : Bool :=
  olderThanDays t props.responseDays now

/-- The comment markers (type `Marker`). -/
inductive Marker where
  | stalePr
  | mergeConflicts
deriving DecidableEq, Repr

/-- The marker's literal text. -/
def markerText : Marker → String
  | .stalePr => "STALE PR"
  | .mergeConflicts => "MERGE CONFLICTS"

/-- Function `marker`: an HTML comment wrapping the marker text. -/
def markerStr (m : Marker) : String := "<!--" ++ markerText m ++ "-->"

/-- The interface `ReviewState` (`state` is the string the code stores:
"approved" or "changes_requested"). -/
structure ReviewState where
  state : String
  when : Nat
deriving DecidableEq, Repr

/-- The interface `Stale` (a verdict: `reason` is one of the three literal
strings of the code, `since` the authoritative timestamp). -/
structure Stale where
  reason : String
  since : Nat
deriving DecidableEq, Repr

/-- The interface `FailedCheck`. -/
structure FailedCheck where
  when : Nat
deriving DecidableEq, Repr

/-- The enum `Action`. -/
inductive Action where
  | nothing
  | warn
  | close
deriving DecidableEq, Repr

/-- The `Metrics` record of run counters. -/
structure Metrics where
  prsProcessed : Nat
  skipped : Nat
  stalePrs : Nat
  staleDueToChangesRequested : Nat
  staleDueToBuildFailing : Nat
  staleDueToMergeConflicts : Nat
  warned : Nat
  closed : Nat
deriving DecidableEq, Repr

/-- Metrics at construction time: every counter zero. -/
def initialMetrics : Metrics := ⟨0, 0, 0, 0, 0, 0, 0, 0⟩

/-- A check run as the code reads it: `name`, `conclusion`, `completed_at`. -/
structure CheckRun where
  name : String
  conclusion : String
  completed_at : Option Nat
deriving DecidableEq, Repr

/-- A commit status as the code reads it: `context`, `state`, `updated_at`. -/
structure CommitStatus where
  context : String
  state : String
  updated_at : Option Nat
deriving DecidableEq, Repr

/-- A pull-request review as the code reads it. -/
structure Review where
  author_association : String
  state : String
  submitted_at : Option Nat
deriving DecidableEq, Repr

/-- An issue comment with the fields the code reads (the code also reads a
`submitted_at` property off comments in `memberReviewed`). -/
structure IssueComment where
  author_association : String
  submitted_at : Option Nat
  body : Option String
  created_at : Nat
deriving DecidableEq, Repr

/-- A commit's `commit.committer?.date` (absent committers and the code's
empty-string filter collapse into `none`). -/
structure PrCommit where
  committer_date : Option Nat
deriving DecidableEq, Repr

/-- A label of a pull request: either a plain string or an object with an
optional `name`. -/
inductive PrLabel where
  | str (s : String)
  | obj (name : Option String)
deriving DecidableEq, Repr

/-- `typeof l === 'string' ? l : l.name`. -/
def labelName : PrLabel → Option String
  | .str s => some s
  | .obj n => n

/-- JS record lookup `ret[key]` on an association list. -/
def recLookup {α : Type} (k : String) : List (String × α) → Option α
  | [] => none
  | (k1, v) :: rest => if k1 = k then some v else recLookup k rest

/-- JS record assignment `ret[key] = x`: overwrite in place, or append. -/
def recInsert {α : Type} (k : String) (v : α) : List (String × α) → List (String × α)
  | [] => [(k, v)]
  | (k1, v1) :: rest =>
    if k1 = k then (k1, v) :: rest else (k1, v1) :: recInsert k v rest

/-- The JS relational comparison `x[timeKey] > ret[key][timeKey]` on optional
timestamps: with both present it is the numeric comparison, with either
absent it is false (null against an ISO string compares through NaN). -/
def jsGtOpt (a b : Option Nat) : Bool :=
  match a, b with
  | some x, some y => decide (y < x)
  | _, _ => false

/-- Function `mostRecent`: key the list by `idKey` and keep, per key, the
entry whose `timeKey` is strictly greater than every earlier champion's. -/
def mostRecent {α : Type} (idKey : α → String) (timeKey : α → Option Nat)
    (xs : List α) : List (String × α) :=
  xs.foldl (fun ret x =>
    match recLookup (idKey x) ret with
    | none => recInsert (idKey x) x ret
    | some prev =>
      if jsGtOpt (timeKey x) (timeKey prev) then recInsert (idKey x) x ret else ret) []

/-- The check-run half of `failingChecks`: dedupe by `name` on `completed_at`,
keep conclusions that are failures with a completion time, as record entries. -/
def checkFailEntries (checks : List CheckRun) : List (String × FailedCheck) :=
  (((mostRecent (fun c => c.name) (fun c => c.completed_at) checks).map
        (fun kv => kv.2)).filter
      (fun c => c.conclusion == "failure" && c.completed_at.isSome)).map
    (fun c => (c.name, ⟨c.completed_at.getD 0⟩))

/-- The commit-status half of `failingChecks`: dedupe by `context` on
`updated_at`, keep failure states with an update time, as record entries. -/
def statusFailEntries (statuses : List CommitStatus) : List (String × FailedCheck) :=
  (((mostRecent (fun c => c.context) (fun c => c.updated_at) statuses).map
        (fun kv => kv.2)).filter
      (fun c => c.state == "failure" && c.updated_at.isSome)).map
    (fun c => (c.context, ⟨c.updated_at.getD 0⟩))

/-- `Object.assign(ret, Object.fromEntries(entries))`: set each entry on the
record in order. -/
def recInsertAll (entries : List (String × FailedCheck))
    (init : List (String × FailedCheck)) : List (String × FailedCheck) :=
  entries.foldl (fun r kv => recInsert kv.1 kv.2 r) init

/-- Method `failingChecks`: assign the check-run entries into an empty record,
then assign the commit-status entries over them. -/
def failingChecks (checks : List CheckRun) (statuses : List CommitStatus) :
    List (String × FailedCheck) :=
  recInsertAll (statusFailEntries statuses) (recInsertAll (checkFailEntries checks) [])

/-- Function `maxTime`: `undefined` on an empty record, else the maximum
`when` over the values. -/
def maxTime (xs : List (String × FailedCheck)) : Option Nat :=
  match xs with
  | [] => none
  | _ => some ((xs.map (fun kv => kv.2.when)).foldl Nat.max 0)

/-- The `buildFailTime` of `findAll` lines 102-109: `maxTime` of the failing
checks, recomputed over the regex-filtered entries when a regex is configured. -/
def buildFailTimeOf (props : Props) (fc : List (String × FailedCheck)) : Option Nat :=
  match props.importantChecksRegex with
  | none => maxTime fc
  | some p => maxTime (fc.filter (fun kv => p kv.1))

/-- Member reviews with a `submitted_at`, as filtered in `reviewState` and
`memberReviewed`. -/
def memberSubmittedReviews (reviews : List Review) : List Review :=
  (reviews.filter (fun r => r.author_association == "MEMBER")).filter
    (fun r => r.submitted_at.isSome)

/-- Member comments with a `submitted_at`, as filtered in `memberReviewed`. -/
def memberSubmittedComments (comments : List IssueComment) : List IssueComment :=
  (comments.filter (fun c => c.author_association == "MEMBER")).filter
    (fun c => c.submitted_at.isSome)

/-- Stable insertion into an ascending list, auxiliary to `stableSort`. -/
def insertSorted {α : Type} (le : α → α → Bool) (x : α) : List α → List α
  | [] => [x]
  | y :: ys => if le x y then x :: y :: ys else y :: insertSorted le x ys

/-- A stable ascending sort: the model of `Array.prototype.sort` (stable per
ES2019) under a `localeCompare` comparator. -/
def stableSort {α : Type} (le : α → α → Bool) : List α → List α
  | [] => []
  | x :: xs => insertSorted le x (stableSort le xs)

/-- Method `reviewState`: member submitted reviews sorted ascending by
`submitted_at` (the `localeCompare` comparator); the last change-request if
any (`cr.pop()`), else the first approval (`approved[0]`), else none. -/
def reviewState (reviews : List Review) : Option ReviewState :=
  let sorted := stableSort
    (fun a b => decide (a.submitted_at.getD 0 ≤ b.submitted_at.getD 0))
    (memberSubmittedReviews reviews)
  let cr := sorted.filter (fun r => r.state == "CHANGES_REQUESTED")
  let approved := sorted.filter (fun r => r.state == "APPROVED")
  match cr.getLast? with
  | some r => some ⟨"changes_requested", r.submitted_at.getD 0⟩
  | none =>
    match approved.head? with
    | some r => some ⟨"approved", r.submitted_at.getD 0⟩
    | none => none

/-- Method `lastCommit`: the last commit time present in the list. -/
def lastCommit (commits : List PrCommit) : Option Nat :=
  (commits.filterMap (fun c => c.committer_date)).getLast?

/-- Method `memberReviewed`: some member comment or member review (each with a
`submitted_at`) exists, anywhere in the history. -/
def memberReviewed (reviews : List Review) (comments : List IssueComment) : Bool :=
  !(memberSubmittedComments comments).isEmpty ||
    !(memberSubmittedReviews reviews).isEmpty

/-- Map lookup `warnings.get(m)` for the warning map. -/
def mapGet (m : Marker) : List (Marker × Nat) → Option Nat
  | [] => none
  | (k, v) :: rest => if k = m then some v else mapGet m rest

/-- `comment.body?.includes(pat)` (patterns here are never empty). -/
def includesSub (body : Option String) (pat : String) : Bool :=
  match body with
  | none => false
  | some s => (s.splitOn pat).length != 1

/-- Method `mostRecentWarnings`: scan the comments newest-first and record,
per marker, the first (hence most recent) comment bearing it. -/
def mostRecentWarnings (comments : List IssueComment) : List (Marker × Nat) :=
  comments.reverse.foldl (fun ret c =>
    [Marker.stalePr, Marker.mergeConflicts].foldl (fun ret m =>
      if includesSub c.body (markerStr m) && (mapGet m ret).isNone then
        ret ++ [(m, c.created_at)]
      else ret) ret) []

/-- Method `hasSkipLabel`: some label name is truthy (in particular nonempty)
and appears in the configured skip list. -/
def hasSkipLabel (props : Props) (labels : List PrLabel) : Bool :=
  match props.skipLabels with
  | none => false
  | some sl =>
    (labels.map labelName).any (fun l =>
      match l with
      | some s => s != "" && sl.contains s
      | none => false)

/-- An external mutating call issued through the client. -/
inductive ApiCall where
  | createComment (issue_number : Nat) (body : String)
  | addLabelsCall (issue_number : Nat) (labels : List String)
  | closeIssueCall (issue_number : Nat)
deriving DecidableEq, Repr

/-- What a run emits: the external calls performed and the console lines that
replace skipped calls under dry-run. -/
structure Effects where
  calls : List ApiCall
  logs : List String
deriving DecidableEq, Repr

/-- No effect. -/
def Effects.empty : Effects := ⟨[], []⟩

/-- Sequencing of effects. -/
def Effects.app (a b : Effects) : Effects := ⟨a.calls ++ b.calls, a.logs ++ b.logs⟩

/-- Method `addComment`: log under dry-run, else create the comment. -/
def addComment (props : Props) (issue_number : Nat) (body : String) : Effects :=
  if props.dryRun then ⟨[], [toString issue_number ++ ": COMMENT " ++ body]⟩
  else ⟨[ApiCall.createComment issue_number body], []⟩

/-- Method `addLabels`: log under dry-run, else add the labels. -/
def addLabels (props : Props) (issue_number : Nat) (labels : List String) : Effects :=
  if props.dryRun then
    ⟨[], [toString issue_number ++ ": ADD LABEL " ++ String.intercalate "," labels]⟩
  else ⟨[ApiCall.addLabelsCall issue_number labels], []⟩

/-- Method `closeIssue`: log under dry-run, else set the state to closed. -/
def closeIssue (props : Props) (issue_number : Nat) : Effects :=
  if props.dryRun then ⟨[], [toString issue_number ++ ": CLOSE"]⟩
  else ⟨[ApiCall.closeIssueCall issue_number], []⟩

/-- Method `addMergeConflictWarning`: the configured or default conflict
message, posted through `addComment`. -/
def addMergeConflictWarning (props : Props) (pull_number : Nat) : Effects :=
  addComment props pull_number (props.mergeConflictWarning.getD
    ("This PR cannot be merged because it has conflicts. Please resolve them. " ++
      "The PR will be considered stale and closed if it remains in an unmergeable state."))

/-- The merge-conflict arm of the staleness chain (`findAll` lines 134-144):
stale when the last commit is older than `staleDays`; else the out-of-band
conflict warning when it is older than the (nonzero) warning threshold. -/
def classifyMergeConflicts (props : Props) (pull_number : Nat) (lc : Option Nat)
    (hasMergeConflicts : Bool) (now : Nat) : Option Stale × Effects :=
  if hasMergeConflicts then
    match lc with
    | some l =>
      if isStale props l now then (some ⟨"MERGE CONFLICTS", l⟩, Effects.empty)
      else if mcwDays props != 0 && olderThanDays l (mcwDays props) now then
        (none, addMergeConflictWarning props pull_number)
      else (none, Effects.empty)
    | none => (none, Effects.empty)
  else (none, Effects.empty)

/-- The build-failing arm of the staleness chain (`findAll` lines 128-133). -/
def classifyBuildFailing (props : Props) (pull_number : Nat) (bft lc : Option Nat)
    (hasMergeConflicts : Bool) (now : Nat) : Option Stale × Effects :=
  match bft with
  | some bt =>
    if isStale props bt now then (some ⟨"BUILD FAILING", bt⟩, Effects.empty)
    else classifyMergeConflicts props pull_number lc hasMergeConflicts now
  | none => classifyMergeConflicts props pull_number lc hasMergeConflicts now

/-- The staleness chain of `findAll` (lines 119-144): changes requested first
(the final revision tests `reviewState`, whatever its state, with a last
commit), then build failing, then merge conflicts.  The second component is
the conflict-warning comment the chain itself emits. -/
def classifyStale (props : Props) (pull_number : Nat) (revSt : Option ReviewState)
    (bft lc : Option Nat) (hasMergeConflicts : Bool) (now : Nat) :
    Option Stale × Effects :=
  match revSt, lc with
  | some rs, some _ =>
    if isStale props rs.when now then (some ⟨"CHANGES REQUESTED", rs.when⟩, Effects.empty)
    else classifyBuildFailing props pull_number bft lc hasMergeConflicts now
  | _, _ => classifyBuildFailing props pull_number bft lc hasMergeConflicts now

/-- The action resolver of `findAll` (lines 150-167): `nothing` without a
verdict; with one, `warn` when there is no STALE PR warning, or it predates
the verdict's `since`, or `memberReviewed` is false; else `close` when the
warning is out of the grace period; else `nothing`. -/
def resolveAction (stOpt : Option Stale) (warnings : List (Marker × Nat))
    (memberRev : Bool) (props : Props) (now : Nat) : Action :=
  match stOpt with
  | none => Action.nothing
  | some s =>
    match mapGet Marker.stalePr warnings with
    | none => Action.warn
    | some warning =>
      if decide (warning < s.since) || !memberRev then Action.warn
      else if outOfGracePeriod props warning now then Action.close
      else Action.nothing

/-- Replacement of the first occurrence only, as `replace(/STATE/, ...)`. -/
def replaceFirst (s pat rep : String) : String :=
  match s.splitOn pat with
  | [] => s
  | [x] => x
  | x :: rest => x ++ rep ++ String.intercalate pat rest

/-- The warn message: the template with STATE substituted once, or the default
built from the verdict's reason and the configured day counts. -/
def warnMessageFor (props : Props) (stOpt : Option Stale) : String :=
  let reason := (stOpt.map (fun s => s.reason)).getD ""
  match props.warnMessage with
  | some t => replaceFirst t "STATE" reason
  | none =>
    "This PR has been in " ++ reason ++ " for " ++ toString props.staleDays ++
      " days, and looks abandoned. It will be closed in " ++
      toString props.responseDays ++ " days if no further commits are pushed to it."

/-- Method `performAction`: `warn` counts and posts the markered warning,
`close` counts, posts the close message, optionally labels, and closes. -/
def performAction (props : Props) (m : Metrics) (pull_number : Nat)
    (action : Action) (stOpt : Option Stale) : Metrics × Effects :=
  match action with
  | .nothing => (m, Effects.empty)
  | .warn =>
    ({m with warned := m.warned + 1},
      addComment props pull_number
        (markerStr Marker.stalePr ++ "\n" ++ warnMessageFor props stOpt))
  | .close =>
    ({m with closed := m.closed + 1},
      Effects.app
        (addComment props pull_number
          (props.closeMessage.getD "No more work is being done on this PR. It will now be closed."))
        (Effects.app
          (if props.closeLabel.isSome then
            addLabels props pull_number [props.closeLabel.getD ""]
          else Effects.empty)
          (closeIssue props pull_number)))

/-- A pull request together with everything the run fetches for it. -/
structure PrData where
  number : Nat
  labels : List PrLabel
  checks : List CheckRun
  statuses : List CommitStatus
  reviews : List Review
  commits : List PrCommit
  comments : List IssueComment
  mergeable_state : String

/-- The staleness chain applied to the facts extracted from a PR. -/
def prClassify (props : Props) (now : Nat) (pr : PrData) : Option Stale × Effects :=
  classifyStale props pr.number (reviewState pr.reviews)
    (buildFailTimeOf props (failingChecks pr.checks pr.statuses))
    (lastCommit pr.commits) (pr.mergeable_state == "dirty") now

/-- The reason-counter increments done inside the staleness branches (each
branch stores a distinct reason string, so the verdict determines the
counter). -/
def bumpReason (m : Metrics) (stOpt : Option Stale) : Metrics :=
  match stOpt with
  | none => m
  | some s =>
    if s.reason == "CHANGES REQUESTED" then
      {m with staleDueToChangesRequested := m.staleDueToChangesRequested + 1}
    else if s.reason == "BUILD FAILING" then
      {m with staleDueToBuildFailing := m.staleDueToBuildFailing + 1}
    else if s.reason == "MERGE CONFLICTS" then
      {m with staleDueToMergeConflicts := m.staleDueToMergeConflicts + 1}
    else m

/-- One iteration of the `findAll` loop body over a PR: count it, short-cut on
a skip label, else classify, count, resolve and perform. -/
def processPr (props : Props) (now : Nat) (m : Metrics) (pr : PrData) :
    Metrics × Effects :=
  let m1 : Metrics := {m with prsProcessed := m.prsProcessed + 1}
  if hasSkipLabel props pr.labels then
    ({m1 with skipped := m1.skipped + 1}, Effects.empty)
  else
    let res := prClassify props now pr
    let m2 := bumpReason m1 res.1
    let m3 := if res.1.isSome then {m2 with stalePrs := m2.stalePrs + 1} else m2
    let action := resolveAction res.1 (mostRecentWarnings pr.comments)
      (memberReviewed pr.reviews pr.comments) props now
    let acted := performAction props m3 pr.number action res.1
    (acted.1, Effects.app res.2 acted.2)

/-- Method `findAll`: reverse to oldest-first, then process each PR in turn,
threading the metrics from their initial zeros. -/
def findAll (props : Props) (now : Nat) (pulls : List PrData) : Metrics × Effects :=
  pulls.reverse.foldl (fun acc pr =>
    let r := processPr props now acc.1 pr
    (r.1, Effects.app acc.2 r.2)) (initialMetrics, Effects.empty)

/-- First-some choice on options: the lookup shape `Object.assign` induces. -/
def optOr {α : Type} (a b : Option α) : Option α :=
  match a with
  | some v => some v
  | none => b

/-- The run-loop metrics invariant: stale verdicts are partitioned by reason,
warn/close happen at most once per stale PR, and skips are processed PRs. -/
def MetricsInv (m : Metrics) : Prop :=
  m.stalePrs = m.staleDueToChangesRequested + m.staleDueToBuildFailing +
    m.staleDueToMergeConflicts ∧
  m.warned + m.closed ≤ m.stalePrs ∧
  m.skipped ≤ m.prsProcessed

/-- Any verdict the staleness chain produces carries one of the three reason
strings. -/
theorem classifyStale_reasons (props : Props) (pull_number : Nat)
    (revSt : Option ReviewState) (bft lc : Option Nat) (hmc : Bool) (now : Nat)
    (s : Stale) (h : (classifyStale props pull_number revSt bft lc hmc now).1 = some s) :
    s.reason = "CHANGES REQUESTED" ∨ s.reason = "BUILD FAILING" ∨
      s.reason = "MERGE CONFLICTS" := by
  unfold classifyStale classifyBuildFailing classifyMergeConflicts at h
  repeat' split at h
  all_goals try cases h
  all_goals simp_all

/-- Without a build-failure time the chain never yields a BUILD FAILING
verdict. -/
theorem classify_bft_none (props : Props) (pull_number : Nat)
    (revSt : Option ReviewState) (lc : Option Nat) (hmc : Bool) (now : Nat)
    (s : Stale) (h : (classifyStale props pull_number revSt none lc hmc now).1 = some s) :
    s.reason ≠ "BUILD FAILING" := by
  unfold classifyStale classifyBuildFailing classifyMergeConflicts at h
  repeat' split at h
  all_goals try cases h
  all_goals simp_all

/-- The member-engagement flag is false exactly when no member review and no
member comment (each with a submission time) exists at all: the check is
independent of when the engagement happened. -/
theorem memberReviewed_eq_false_iff (reviews : List Review)
    (comments : List IssueComment) :
    memberReviewed reviews comments = false ↔
      ((∀ r ∈ reviews, r.author_association = "MEMBER" → r.submitted_at = none) ∧
       (∀ c ∈ comments, c.author_association = "MEMBER" → c.submitted_at = none)) := by
  unfold memberReviewed memberSubmittedReviews memberSubmittedComments
  simp [List.isEmpty_iff, List.filter_eq_nil_iff, List.mem_filter,
    Option.isSome_iff_ne_none, and_comm]

/-- C1 (counterexample): a member comment submitted after the STALE PR warning
(25d after 20d), a verdict since 10d, and a run at 25d.  The claim predicts
`warn` (member engaged since the last warning), but the resolver returns
`nothing`: engagement suppresses re-warning instead of causing it. -/
theorem c1_counterexample :
    memberReviewed [] [⟨"MEMBER", some (25 * msPerDay), some "lgtm", 25 * msPerDay⟩]
        = true ∧
    20 * msPerDay < 25 * msPerDay ∧
    resolveAction (some ⟨"CHANGES REQUESTED", 10 * msPerDay⟩)
        [(Marker.stalePr, 20 * msPerDay)]
        (memberReviewed []
          [⟨"MEMBER", some (25 * msPerDay), some "lgtm", 25 * msPerDay⟩])
        ⟨21, 10, none, none, none, none, none, none, none, false⟩ (25 * msPerDay)
      = Action.nothing :=
  ⟨by decide, by decide, by decide⟩

/-- C1 (amended): with a stale verdict, the resolver returns Warn exactly when
there is no prior STALE PR warning, or the prior warning is strictly earlier
than the verdict's since, or no member has ever commented or reviewed (with a
submission time) — regardless of when that engagement happened relative to
the warning. -/
theorem c1_amended (s : Stale) (warnings : List (Marker × Nat)) (reviews : List Review)
    (comments : List IssueComment) (props : Props) (now : Nat) :
    resolveAction (some s) warnings (memberReviewed reviews comments) props now
        = Action.warn ↔
      (mapGet Marker.stalePr warnings = none
       ∨ (∃ w, mapGet Marker.stalePr warnings = some w ∧ w < s.since)
       ∨ ((∀ r ∈ reviews, r.author_association = "MEMBER" → r.submitted_at = none)
          ∧ (∀ c ∈ comments, c.author_association = "MEMBER" → c.submitted_at = none))) := by
  rw [← memberReviewed_eq_false_iff]
  cases hW : mapGet Marker.stalePr warnings with
  | none => simp [resolveAction, hW]
  | some w =>
    simp only [resolveAction, hW]
    by_cases h1 : w < s.since
    · simp [h1]
    · by_cases h2 : memberReviewed reviews comments = false
      · simp [h1, h2]
      · have h2t : memberReviewed reviews comments = true := by
          cases h : memberReviewed reviews comments
          · exact absurd h h2
          · rfl
        simp only [h2t, h1, decide_eq_true_eq]
        by_cases h3 : outOfGracePeriod props w now = true
        · simp [h3, h1, h2]
        · simp [h3, h1, h2]

/-- C2 (code bug): a single member APPROVED review at time 0 and a last commit
at 40d, run at 50d with staleDays 21.  No change request exists, yet the
classifier's first branch fires on any `reviewState` and produces the
CHANGES REQUESTED verdict anchored at the approval time. -/
theorem c2_code_bug :
    reviewState [⟨"MEMBER", "APPROVED", some 0⟩] = some ⟨"approved", 0⟩ ∧
    (classifyStale ⟨21, 10, none, none, none, none, none, none, none, false⟩ 1
        (reviewState [⟨"MEMBER", "APPROVED", some 0⟩]) none (some (40 * msPerDay))
        false (50 * msPerDay)).1 = some ⟨"CHANGES REQUESTED", 0⟩ :=
  ⟨by decide, by decide⟩

/-- C3 (code bug): two member change requests at 100 and 200: the derived
state carries the NEWEST (200), though the code's comment and the spec call
for the oldest; two member approvals at 100 and 200: the derived state
carries the OLDEST (100), though the spec calls for the newest.  The sort is
ascending while `cr.pop()` and `approved[0]` assume it descending. -/
theorem c3_code_bug :
    reviewState [⟨"MEMBER", "CHANGES_REQUESTED", some 100⟩,
        ⟨"MEMBER", "CHANGES_REQUESTED", some 200⟩] = some ⟨"changes_requested", 200⟩ ∧
    reviewState [⟨"MEMBER", "APPROVED", some 100⟩, ⟨"MEMBER", "APPROVED", some 200⟩]
        = some ⟨"approved", 100⟩ ∧
    (100 : Nat) < 200 :=
  ⟨by decide, by decide, by decide⟩

/-- C4 (counterexample): warning at 20d, responseDays 10, run at exactly 30d
(so now = warning + responseDays), verdict since 10d, member engaged.  The
claim predicts Close once now >= warning + responseDays, but the strict
comparison leaves the action at `nothing` on the boundary instant. -/
theorem c4_counterexample :
    30 * msPerDay = 20 * msPerDay + 10 * msPerDay ∧
    resolveAction (some ⟨"CHANGES REQUESTED", 10 * msPerDay⟩)
        [(Marker.stalePr, 20 * msPerDay)] true
        ⟨21, 10, none, none, none, none, none, none, none, false⟩ (30 * msPerDay)
      = Action.nothing :=
  ⟨by decide, by decide⟩

/-- C4 (amended): for a fixed verdict and a non-superseded warning, and given
that a member has engaged (else the resolver warns forever), the action is
Nothing while now <= warning + responseDays and Close once
now > warning + responseDays, with no other transition possible. -/
theorem c4_amended (props : Props) (now : Nat) (s : Stale) (w : Nat)
    (hsup : s.since ≤ w) :
    (resolveAction (some s) [(Marker.stalePr, w)] true props now = Action.nothing ↔
        now ≤ w + props.responseDays * msPerDay) ∧
    (resolveAction (some s) [(Marker.stalePr, w)] true props now = Action.close ↔
        w + props.responseDays * msPerDay < now) := by
  have hW : mapGet Marker.stalePr [(Marker.stalePr, w)] = some w := rfl
  have hlt : ¬ (w < s.since) := Nat.not_lt.mpr hsup
  simp only [resolveAction, hW, hlt, outOfGracePeriod, olderThanDays]
  by_cases h : w + props.responseDays * msPerDay < now
  · simp [h]
  · simp [h]
    omega

/-- C4 (witness): at warning 0, responseDays 1 and now 0 the amended theorem
applies and yields action `nothing`. -/
theorem c4_witness :
    (0 : Nat) ≤ 0 ∧
    resolveAction (some ⟨"CHANGES REQUESTED", 0⟩) [(Marker.stalePr, 0)] true
        ⟨21, 10, none, none, none, none, none, none, none, false⟩ 0 = Action.nothing :=
  ⟨Nat.le_refl 0,
    ((c4_amended ⟨21, 10, none, none, none, none, none, none, none, false⟩ 0
        ⟨"CHANGES REQUESTED", 0⟩ 0 (Nat.le_refl 0)).1).mpr (by decide)⟩

/-- C5: the staleness chain yields at most one verdict; every verdict's reason
is one of the three strings; a non-ChangesRequested verdict means the
changes-requested condition (review state, last commit, stale review time)
failed, and a MergeConflicts verdict means the build-failing condition failed
as well; and whenever both the changes-requested-stale and the
build-failing-stale conditions hold, the verdict is ChangesRequested. -/
theorem c5 (props : Props) (pull_number : Nat) (revSt : Option ReviewState)
    (bft lc : Option Nat) (hmc : Bool) (now : Nat) :
    (∀ s1 s2, (classifyStale props pull_number revSt bft lc hmc now).1 = some s1 →
        (classifyStale props pull_number revSt bft lc hmc now).1 = some s2 → s1 = s2) ∧
    (∀ s, (classifyStale props pull_number revSt bft lc hmc now).1 = some s →
        s.reason = "CHANGES REQUESTED" ∨ s.reason = "BUILD FAILING" ∨
          s.reason = "MERGE CONFLICTS") ∧
    (∀ s, (classifyStale props pull_number revSt bft lc hmc now).1 = some s →
        s.reason ≠ "CHANGES REQUESTED" →
        ∀ rs l, revSt = some rs → lc = some l → isStale props rs.when now = false) ∧
    (∀ s, (classifyStale props pull_number revSt bft lc hmc now).1 = some s →
        s.reason = "MERGE CONFLICTS" →
        ∀ bt, bft = some bt → isStale props bt now = false) ∧
    (∀ rs l bt, revSt = some rs → lc = some l → isStale props rs.when now = true →
        bft = some bt → isStale props bt now = true →
        (classifyStale props pull_number revSt bft lc hmc now).1
          = some ⟨"CHANGES REQUESTED", rs.when⟩) := by
  refine ⟨?_, ?_, ?_, ?_, ?_⟩
  · intro s1 s2 h1 h2
    exact Option.some.inj (h1.symm.trans h2)
  · intro s h
    exact classifyStale_reasons props pull_number revSt bft lc hmc now s h
  · intro s h hne rs l hrs hl
    subst hrs hl
    cases hs : isStale props rs.when now with
    | false => rfl
    | true =>
      exfalso
      simp [classifyStale, hs] at h
      subst h
      simp at hne
  · intro s h hMC bt hbt
    subst hbt
    cases hb : isStale props bt now with
    | false => rfl
    | true =>
      exfalso
      unfold classifyStale classifyBuildFailing at h
      repeat' split at h
      all_goals try cases h
      all_goals simp_all
  · intro rs l bt hrs hl hcr hbt hbf
    subst hrs hl hbt
    simp [classifyStale, hcr]

/-- Looking up a key after a JS assignment sees the new value at that key and
is unchanged elsewhere. -/
theorem recLookup_recInsert {α : Type} (k k2 : String) (v : α)
    (l : List (String × α)) :
    recLookup k (recInsert k2 v l) = if k2 = k then some v else recLookup k l := by
  induction l with
  | nil => simp [recInsert, recLookup]
  | cons hd tl ih =>
    obtain ⟨k1, v1⟩ := hd
    simp only [recInsert, recLookup]
    by_cases h1 : k1 = k2
    · subst h1
      by_cases h2 : k1 = k <;> simp [h2, recLookup]
    · by_cases h2 : k1 = k
      · subst h2
        have h3 : ¬ (k2 = k1) := fun hh => h1 hh.symm
        simp [h1, h3, recLookup]
      · simp [h1, h2, recLookup, ih]

/-- Assigning a batch of entries unfolds one entry at a time. -/
theorem recInsertAll_cons (kv : String × FailedCheck)
    (rest : List (String × FailedCheck)) (init : List (String × FailedCheck)) :
    recInsertAll (kv :: rest) init = recInsertAll rest (recInsert kv.1 kv.2 init) := rfl

/-- Looking up a key after assigning a batch of entries over `init` prefers
whatever the batch alone yields and falls back to `init`. -/
theorem recLookup_recInsertAll (entries : List (String × FailedCheck)) :
    ∀ (init : List (String × FailedCheck)) (k : String),
      recLookup k (recInsertAll entries init) =
        optOr (recLookup k (recInsertAll entries [])) (recLookup k init) := by
  induction entries with
  | nil => intro init k; simp [recInsertAll, optOr, recLookup]
  | cons kv rest ih =>
    intro init k
    rw [recInsertAll_cons, recInsertAll_cons, ih (recInsert kv.1 kv.2 init) k,
      ih (recInsert kv.1 kv.2 []) k, recLookup_recInsert, recLookup_recInsert]
    cases hL : recLookup k (recInsertAll rest []) with
    | some v => simp [optOr]
    | none => by_cases hk : kv.1 = k <;> simp [optOr, hk, recLookup]

/-- Every entry of a record after an assignment has the assigned key or one of
the keys already present. -/
theorem keys_recInsert {α : Type} (k : String) (v : α) (l : List (String × α)) :
    ∀ kv ∈ recInsert k v l, kv.1 = k ∨ kv.1 ∈ l.map Prod.fst := by
  induction l with
  | nil => intro kv h; simp [recInsert] at h; simp [h]
  | cons hd tl ih =>
    obtain ⟨k1, v1⟩ := hd
    intro kv h
    simp only [recInsert] at h
    by_cases h1 : k1 = k
    · simp [h1] at h
      rcases h with h | h
      · left; simp [h, h1]
      · right; simp; right; exact ⟨kv.2, by simpa using h⟩
    · simp [h1] at h
      rcases h with h | h
      · right; simp [h]
      · rcases ih kv h with h2 | h2
        · left; exact h2
        · right; simp at h2 ⊢; tauto

/-- JS assignment preserves key distinctness of a record. -/
theorem pairwise_keys_recInsert {α : Type} (k : String) (v : α)
    (l : List (String × α)) (h : l.Pairwise (fun a b => a.1 ≠ b.1)) :
    (recInsert k v l).Pairwise (fun a b => a.1 ≠ b.1) := by
  induction l with
  | nil => simp [recInsert]
  | cons hd tl ih =>
    obtain ⟨k1, v1⟩ := hd
    rw [List.pairwise_cons] at h
    obtain ⟨h1, h2⟩ := h
    simp only [recInsert]
    by_cases hk : k1 = k
    · subst hk
      rw [if_pos rfl, List.pairwise_cons]
      exact ⟨fun b hb => h1 b hb, h2⟩
    · simp only [if_neg hk]
      rw [List.pairwise_cons]
      constructor
      · intro b hb
        rcases keys_recInsert k v tl b hb with hb2 | hb2
        · rw [hb2]; exact hk
        · simp only [List.mem_map] at hb2
          obtain ⟨a, ha, ha2⟩ := hb2
          rw [← ha2]
          exact h1 a ha
      · exact ih h2

/-- Batch assignment preserves key distinctness of a record. -/
theorem pairwise_keys_recInsertAll (entries : List (String × FailedCheck)) :
    ∀ init, init.Pairwise (fun (a b : String × FailedCheck) => a.1 ≠ b.1) →
      (recInsertAll entries init).Pairwise (fun a b => a.1 ≠ b.1) := by
  induction entries with
  | nil => intro init h; exact h
  | cons kv rest ih =>
    intro init h
    rw [recInsertAll_cons]
    exact ih _ (pairwise_keys_recInsert _ _ _ h)

/-- C6 (counterexample): check name X failed in the check-runs at time 10 and
in the commit-statuses at time 5.  The aggregation keeps the status entry
(time 5), not the most recent result across both sources (time 10). -/
theorem c6_counterexample :
    failingChecks [⟨"X", "failure", some 10⟩] [⟨"X", "failure", some 5⟩]
        = [("X", ⟨5⟩)] ∧ (5 : Nat) < 10 :=
  ⟨by decide, by decide⟩

/-- C6 (amended): the aggregation has one entry per distinct name, where each
source is separately deduplicated to its most recent failing result per name,
and on a cross-source name collision the commit-status entry overrides the
check-run entry regardless of which is more recent. -/
theorem c6_amended (checks : List CheckRun) (statuses : List CommitStatus)
    (k : String) :
    recLookup k (failingChecks checks statuses) =
      optOr (recLookup k (recInsertAll (statusFailEntries statuses) []))
        (recLookup k (recInsertAll (checkFailEntries checks) [])) ∧
    (failingChecks checks statuses).Pairwise (fun a b => a.1 ≠ b.1) := by
  constructor
  · unfold failingChecks
    exact recLookup_recInsertAll _ _ _
  · unfold failingChecks
    apply pairwise_keys_recInsertAll
    apply pairwise_keys_recInsertAll
    exact List.Pairwise.nil

/-- C7: with a configured pattern that no failing check's name matches, the
build-failure time is none — so the chain can never yield a BUILD FAILING
verdict, no matter what failing checks the unfiltered set holds. -/
theorem c7 (props : Props) (p : String → Bool) (fc : List (String × FailedCheck))
    (pull_number : Nat) (revSt : Option ReviewState) (lc : Option Nat) (hmc : Bool)
    (now : Nat) (hreg : props.importantChecksRegex = some p)
    (hmiss : ∀ kv ∈ fc, p kv.1 = false) :
    buildFailTimeOf props fc = none ∧
    ∀ s, (classifyStale props pull_number revSt (buildFailTimeOf props fc) lc hmc
        now).1 = some s → s.reason ≠ "BUILD FAILING" := by
  have hfil : fc.filter (fun kv => p kv.1) = [] := by
    rw [List.filter_eq_nil_iff]
    intro a ha
    simp [hmiss a ha]
  have hb : buildFailTimeOf props fc = none := by
    simp [buildFailTimeOf, hreg, hfil, maxTime]
  refine ⟨hb, ?_⟩
  rw [hb]
  intro s h
  exact classify_bft_none props pull_number revSt lc hmc now s h

/-- C7 (witness): a failing check named lint at time 999 with a pattern that
matches nothing yields no build-failure signal. -/
theorem c7_witness :
    (∀ kv ∈ [("lint", (⟨999⟩ : FailedCheck))], (fun _ => false) kv.1 = false) ∧
    buildFailTimeOf ⟨21, 10, none, none, some (fun _ => false), none, none, none,
        none, false⟩ [("lint", ⟨999⟩)] = none :=
  ⟨fun _ _ => rfl,
    (c7 _ (fun _ => false) [("lint", ⟨999⟩)] 1 none none false 0 rfl
      (fun _ _ => rfl)).1⟩

/-- C8 (counterexample): merge-conflict flag set, last commit at 46d (not
stale at 50d with staleDays 21, but older than the default 3-day conflict
threshold) — the claim predicts a conflict warning and no verdict, yet a
change-requested review stale since 10d preempts the branch: the chain
produces a CHANGES REQUESTED verdict and emits no conflict warning. -/
theorem c8_counterexample :
    classifyStale ⟨21, 10, none, none, none, none, none, none, none, false⟩ 7
        (some ⟨"changes_requested", 10 * msPerDay⟩) none (some (46 * msPerDay)) true
        (50 * msPerDay)
      = (some ⟨"CHANGES REQUESTED", 10 * msPerDay⟩, Effects.empty) ∧
    isStale ⟨21, 10, none, none, none, none, none, none, none, false⟩ (46 * msPerDay)
        (50 * msPerDay) = false ∧
    olderThanDays (46 * msPerDay) 3 (50 * msPerDay) = true :=
  ⟨by decide, by decide, by decide⟩

/-- C8 (amended): when the merge-conflict flag is set, the last commit exists
and is not older than staleDays but older than the nonzero conflict-warning
threshold, and neither the changes-requested branch nor the build-failing
branch fires, the chain yields no verdict and emits the conflict-warning
comment — a function only of these facts, so not gated by the action
resolver and not deduplicated against prior warnings. -/
theorem c8_amended (props : Props) (pull_number : Nat) (revSt : Option ReviewState)
    (bft : Option Nat) (l now : Nat)
    (hcr : ∀ rs, revSt = some rs → isStale props rs.when now = false)
    (hbf : ∀ bt, bft = some bt → isStale props bt now = false)
    (hns : isStale props l now = false)
    (hd : mcwDays props ≠ 0)
    (hold : olderThanDays l (mcwDays props) now = true) :
    classifyStale props pull_number revSt bft (some l) true now
      = (none, addMergeConflictWarning props pull_number) := by
  unfold classifyStale classifyBuildFailing classifyMergeConflicts
  cases revSt with
  | none =>
    cases bft with
    | none => simp [hns, hd, hold]
    | some bt => simp [hbf bt rfl, hns, hd, hold]
  | some rs =>
    cases bft with
    | none => simp [hcr rs rfl, hns, hd, hold]
    | some bt => simp [hcr rs rfl, hbf bt rfl, hns, hd, hold]

/-- C8 (witness): no review state, no failing check, merge conflicts, last
commit at 46d, run at 50d with the default threshold 3: no verdict and the
conflict-warning comment. -/
theorem c8_witness :
    isStale ⟨21, 10, none, none, none, none, none, none, none, false⟩ (46 * msPerDay)
        (50 * msPerDay) = false ∧
    olderThanDays (46 * msPerDay) 3 (50 * msPerDay) = true ∧
    classifyStale ⟨21, 10, none, none, none, none, none, none, none, false⟩ 7 none none
        (some (46 * msPerDay)) true (50 * msPerDay)
      = (none, addMergeConflictWarning
          ⟨21, 10, none, none, none, none, none, none, none, false⟩ 7) :=
  ⟨by decide, by decide,
    c8_amended _ 7 none none _ _ (fun rs h => by cases h) (fun bt h => by cases h)
      (by decide) (by decide) (by decide)⟩

/-- C9: under dry-run the performed action has exactly the metrics it would
have without dry-run, makes no external call, and each mutating operation
(create comment, add labels, close) logs the intended call instead. -/
theorem c9 (props : Props) (m : Metrics) (pull_number : Nat) (action : Action)
    (stOpt : Option Stale) (body : String) (labels : List String) :
    (performAction {props with dryRun := true} m pull_number action stOpt).1
        = (performAction {props with dryRun := false} m pull_number action stOpt).1 ∧
    (performAction {props with dryRun := true} m pull_number action stOpt).2.calls
        = [] ∧
    addComment {props with dryRun := true} pull_number body
        = ⟨[], [toString pull_number ++ ": COMMENT " ++ body]⟩ ∧
    addLabels {props with dryRun := true} pull_number labels
        = ⟨[], [toString pull_number ++ ": ADD LABEL " ++
            String.intercalate "," labels]⟩ ∧
    closeIssue {props with dryRun := true} pull_number
        = ⟨[], [toString pull_number ++ ": CLOSE"]⟩ := by
  refine ⟨?_, ?_, rfl, rfl, rfl⟩
  · cases action <;> rfl
  · cases action with
    | nothing => rfl
    | warn => rfl
    | close =>
      simp only [performAction, addComment, addLabels, closeIssue, Effects.app]
      by_cases h : props.closeLabel.isSome <;> simp [h, Effects.empty]

/-- Processing one PR preserves the metrics invariant. -/
theorem processPr_inv (props : Props) (now : Nat) (pr : PrData) (m : Metrics)
    (h : MetricsInv m) : MetricsInv (processPr props now m pr).1 := by
  obtain ⟨h1, h2, h3⟩ := h
  unfold processPr
  by_cases hskip : hasSkipLabel props pr.labels
  · simp only [hskip, if_true]
    refine ⟨?_, ?_, ?_⟩ <;> dsimp only <;> omega
  · simp only [hskip, Bool.false_eq_true, if_false]
    cases hres : (prClassify props now pr).1 with
    | none =>
      simp only [hres, bumpReason, Option.isSome_none, Bool.false_eq_true, if_false,
        resolveAction, performAction]
      refine ⟨?_, ?_, ?_⟩ <;> dsimp only <;> omega
    | some s =>
      have hr : s.reason = "CHANGES REQUESTED" ∨ s.reason = "BUILD FAILING" ∨
          s.reason = "MERGE CONFLICTS" :=
        classifyStale_reasons props pr.number (reviewState pr.reviews)
          (buildFailTimeOf props (failingChecks pr.checks pr.statuses))
          (lastCommit pr.commits) (pr.mergeable_state == "dirty") now s hres
      simp only [hres, Option.isSome_some, if_true]
      rcases hr with hrr | hrr | hrr <;>
        cases hact : resolveAction (some s) (mostRecentWarnings pr.comments)
          (memberReviewed pr.reviews pr.comments) props now <;>
        simp [performAction, bumpReason, hrr] <;>
        refine ⟨?_, ?_, ?_⟩ <;> dsimp only <;> omega

/-- Folding the loop body over any PR list preserves the metrics invariant. -/
theorem findAll_inv_aux (props : Props) (now : Nat) (pulls : List PrData) :
    ∀ (m : Metrics) (e : Effects), MetricsInv m →
      MetricsInv ((pulls.foldl (fun acc pr =>
        let r := processPr props now acc.1 pr
        (r.1, Effects.app acc.2 r.2)) (m, e)).1) := by
  induction pulls with
  | nil => intro m e h; exact h
  | cons pr rest ih =>
    intro m e h
    simp only [List.foldl]
    exact ih _ _ (processPr_inv props now pr m h)

/-- C10: after any run, the stale total equals the sum of the per-reason
counters, warned plus closed never exceeds the stale total, and skipped never
exceeds processed. -/
theorem c10 (props : Props) (now : Nat) (pulls : List PrData) :
    (findAll props now pulls).1.stalePrs
        = (findAll props now pulls).1.staleDueToChangesRequested
          + (findAll props now pulls).1.staleDueToBuildFailing
          + (findAll props now pulls).1.staleDueToMergeConflicts ∧
    (findAll props now pulls).1.warned + (findAll props now pulls).1.closed
        ≤ (findAll props now pulls).1.stalePrs ∧
    (findAll props now pulls).1.skipped ≤ (findAll props now pulls).1.prsProcessed := by
  have hinit : MetricsInv initialMetrics := ⟨rfl, Nat.le_refl 0, Nat.le_refl 0⟩
  exact findAll_inv_aux props now pulls.reverse initialMetrics Effects.empty hinit

end StalePrs
